import Mathlib

/-!
Verification of the POSSIM customer-priority data utilities.

Each definition below is a shallow embedding of the corresponding Python
function in 03_data_utils.py.  Strings are modelled through their character
lists; pandas missing values (NaN) are modelled with Option; pandas frames
are modelled as lists of records.  The theorems at the end of the file
settle the frozen claims C1 to C10 about this code.
-/

/-! ## Character-level helpers

The Python code uses the regex class \s together with str.strip.  Both act
on the same whitespace characters; we model that set by code point:
space, tab, newline, carriage return, vertical tab, form feed, the
ideographic (full-width) space U+3000 and the no-break space U+00A0. -/

def pyIsSpace (c : Char) : Bool :=
  c.toNat == 32 || c.toNat == 9 || c.toNat == 10 || c.toNat == 13 ||
  c.toNat == 11 || c.toNat == 12 || c.toNat == 12288 || c.toNat == 160

/-- Characters deleted by normalize_name: the regex class consisting of
whitespace, the full-width space (U+3000, already whitespace), the
underscore (95), the hyphen (45) and the katakana middle dot U+30FB. -/
def isNameStripped (c : Char) : Bool :=
  pyIsSpace c || c.toNat == 12288 || c.toNat == 95 || c.toNat == 45 ||
  c.toNat == 12539

/-- Python str.lower restricted to the code points that actually occur in
the data: ASCII upper-case letters map to lower case, everything else is
unchanged. -/
def pyLower (c : Char) : Char :=
  if h : 65 ≤ c.toNat ∧ c.toNat ≤ 90 then
    Char.ofNatAux (c.toNat + 32) (Or.inl (by omega))
  else c

/-- Python str.strip on a character list: drop whitespace from both ends. -/
def stripChars (l : List Char) : List Char :=
  ((l.dropWhile pyIsSpace).reverse.dropWhile pyIsSpace).reverse

/-! ## Field Normalizer (normalize_name, normalize_email)

Inputs are Option String: none models a pandas NaN cell. -/

/-- Embedding of normalize_name: empty or missing input gives the empty
string, otherwise the characters of the regex class are removed and the
result is stripped. -/
def normalize_name : Option String → String
  | none => ""
  | some s =>
    if s = "" then ""
    else String.mk (stripChars (s.data.filter (fun c => !isNameStripped c)))

/-- Embedding of normalize_email: empty or missing input gives the empty
string, otherwise the string is lower-cased and stripped. -/
def normalize_email : Option String → String
  | none => ""
  | some s =>
    if s = "" then ""
    else String.mk (stripChars (s.data.map pyLower))

/-- Characters named by claim C4 as removed by normalize_name: ASCII space,
full-width space U+3000, underscore, hyphen and the middle dot U+30FB. -/
def removedByClaim (c : Char) : Bool :=
  c.toNat == 32 || c.toNat == 12288 || c.toNat == 95 || c.toNat == 45 ||
  c.toNat == 12539

/-! ## Generic substring substitution

Python re.sub with a literal pattern replaces all non-overlapping
occurrences in one left-to-right pass; str.replace does the same with
exact matching.  Both are modelled by replaceByAux, parameterised by the
character comparison.  The fuel argument equals the length of the scanned
list, which bounds the recursion depth. -/

def matchesBy (eqc : Char → Char → Bool) : List Char → List Char → Bool
  | [], _ => true
  | _ :: _, [] => false
  | p :: ps, c :: cs => eqc p c && matchesBy eqc ps cs

def replaceByAux (eqc : Char → Char → Bool) (pat repl : List Char) :
    Nat → List Char → List Char
  | _, [] => []
  | 0, s => s
  | fuel + 1, c :: cs =>
    if !pat.isEmpty && matchesBy eqc pat (c :: cs) then
      repl ++ replaceByAux eqc pat repl fuel ((c :: cs).drop pat.length)
    else
      c :: replaceByAux eqc pat repl fuel cs

/-- Case-insensitive substitution of all occurrences, as re.sub with
re.IGNORECASE does for an escaped literal pattern. -/
def replaceCI (pat repl : String) (s : List Char) : List Char :=
  replaceByAux (fun a b => pyLower a == pyLower b) pat.data repl.data s.length s

/-- Exact substitution of all occurrences, as str.replace does. -/
def replaceExact (pat repl : String) (s : List Char) : List Char :=
  replaceByAux (fun a b => a == b) pat.data repl.data s.length s

/-- Substring test, as the Python in operator on strings. -/
def hasSub (sub : List Char) : List Char → Bool
  | [] => sub.isEmpty
  | c :: cs => sub.isPrefixOf (c :: cs) || hasSub sub cs

/-! ## Geography Resolver -/

/-- The 47 official prefecture names, in the order of the list inside
standardize_address_with_prefecture. -/
def PREFECTURES : List String := [
  "北海道",
  "青森県", "岩手県", "宮城県", "秋田県", "山形県", "福島県",
  "茨城県", "栃木県", "群馬県", "埼玉県", "千葉県", "東京都", "神奈川県",
  "新潟県", "富山県", "石川県", "福井県", "山梨県", "長野県",
  "岐阜県", "静岡県", "愛知県", "三重県",
  "滋賀県", "京都府", "大阪府", "兵庫県", "奈良県", "和歌山県",
  "鳥取県", "島根県", "岡山県", "広島県", "山口県",
  "徳島県", "香川県", "愛媛県", "高知県",
  "福岡県", "佐賀県", "長崎県", "熊本県", "大分県", "宮崎県", "鹿児島県",
  "沖縄県"]

/-- The municipality-to-prefecture table CITY_TO_PREFECTURE, in Python dict
insertion order. -/
def CITY_TO_PREFECTURE : List (String × String) := [
  ("千代田区", "東京都"), ("中央区", "東京都"), ("港区", "東京都"),
  ("新宿区", "東京都"), ("文京区", "東京都"), ("台東区", "東京都"),
  ("墨田区", "東京都"), ("江東区", "東京都"), ("品川区", "東京都"),
  ("目黒区", "東京都"), ("大田区", "東京都"), ("世田谷区", "東京都"),
  ("渋谷区", "東京都"), ("中野区", "東京都"), ("杉並区", "東京都"),
  ("豊島区", "東京都"), ("北区", "東京都"), ("荒川区", "東京都"),
  ("板橋区", "東京都"), ("練馬区", "東京都"), ("足立区", "東京都"),
  ("葛飾区", "東京都"), ("江戸川区", "東京都"),
  ("八王子市", "東京都"), ("立川市", "東京都"), ("武蔵野市", "東京都"),
  ("三鷹市", "東京都"), ("青梅市", "東京都"), ("府中市", "東京都"),
  ("昭島市", "東京都"), ("調布市", "東京都"), ("町田市", "東京都"),
  ("小金井市", "東京都"), ("小平市", "東京都"), ("日野市", "東京都"),
  ("東村山市", "東京都"), ("国分寺市", "東京都"), ("国立市", "東京都"),
  ("福生市", "東京都"), ("狛江市", "東京都"), ("東大和市", "東京都"),
  ("清瀬市", "東京都"), ("東久留米市", "東京都"), ("武蔵村山市", "東京都"),
  ("多摩市", "東京都"), ("稲城市", "東京都"), ("羽村市", "東京都"),
  ("あきる野市", "東京都"), ("西東京市", "東京都"),
  ("横浜市", "神奈川県"), ("川崎市", "神奈川県"), ("相模原市", "神奈川県"),
  ("横須賀市", "神奈川県"), ("平塚市", "神奈川県"), ("鎌倉市", "神奈川県"),
  ("藤沢市", "神奈川県"), ("小田原市", "神奈川県"), ("茅ヶ崎市", "神奈川県"),
  ("逗子市", "神奈川県"), ("三浦市", "神奈川県"), ("秦野市", "神奈川県"),
  ("厚木市", "神奈川県"), ("大和市", "神奈川県"), ("伊勢原市", "神奈川県"),
  ("海老名市", "神奈川県"), ("座間市", "神奈川県"), ("南足柄市", "神奈川県"),
  ("綾瀬市", "神奈川県"),
  ("さいたま市", "埼玉県"), ("川越市", "埼玉県"), ("熊谷市", "埼玉県"),
  ("川口市", "埼玉県"), ("行田市", "埼玉県"), ("秩父市", "埼玉県"),
  ("所沢市", "埼玉県"), ("飯能市", "埼玉県"), ("加須市", "埼玉県"),
  ("本庄市", "埼玉県"), ("東松山市", "埼玉県"), ("春日部市", "埼玉県"),
  ("狭山市", "埼玉県"), ("羽生市", "埼玉県"), ("鴻巣市", "埼玉県"),
  ("深谷市", "埼玉県"), ("上尾市", "埼玉県"), ("草加市", "埼玉県"),
  ("越谷市", "埼玉県"), ("蕨市", "埼玉県"), ("戸田市", "埼玉県"),
  ("入間市", "埼玉県"), ("朝霞市", "埼玉県"), ("志木市", "埼玉県"),
  ("和光市", "埼玉県"), ("新座市", "埼玉県"), ("桶川市", "埼玉県"),
  ("久喜市", "埼玉県"), ("北本市", "埼玉県"), ("八潮市", "埼玉県"),
  ("富士見市", "埼玉県"), ("三郷市", "埼玉県"), ("蓮田市", "埼玉県"),
  ("坂戸市", "埼玉県"), ("幸手市", "埼玉県"), ("鶴ヶ島市", "埼玉県"),
  ("日高市", "埼玉県"), ("吉川市", "埼玉県"), ("ふじみ野市", "埼玉県"),
  ("白岡市", "埼玉県"),
  ("千葉市", "千葉県"), ("銚子市", "千葉県"), ("市川市", "千葉県"),
  ("船橋市", "千葉県"), ("館山市", "千葉県"), ("木更津市", "千葉県"),
  ("松戸市", "千葉県"), ("野田市", "千葉県"), ("茂原市", "千葉県"),
  ("成田市", "千葉県"), ("佐倉市", "千葉県"), ("東金市", "千葉県"),
  ("旭市", "千葉県"), ("習志野市", "千葉県"), ("柏市", "千葉県"),
  ("勝浦市", "千葉県"), ("市原市", "千葉県"), ("流山市", "千葉県"),
  ("八千代市", "千葉県"), ("我孫子市", "千葉県"), ("鴨川市", "千葉県"),
  ("鎌ケ谷市", "千葉県"), ("君津市", "千葉県"), ("富津市", "千葉県"),
  ("浦安市", "千葉県"), ("四街道市", "千葉県"), ("袖ケ浦市", "千葉県"),
  ("八街市", "千葉県"), ("印西市", "千葉県"), ("白井市", "千葉県"),
  ("富里市", "千葉県"), ("南房総市", "千葉県"), ("匝瑳市", "千葉県"),
  ("香取市", "千葉県"), ("山武市", "千葉県"), ("いすみ市", "千葉県"),
  ("大網白里市", "千葉県"),
  ("札幌市", "北海道"), ("仙台市", "宮城県"), ("新潟市", "新潟県"),
  ("静岡市", "静岡県"), ("浜松市", "静岡県"), ("名古屋市", "愛知県"),
  ("京都市", "京都府"), ("大阪市", "大阪府"), ("堺市", "大阪府"),
  ("神戸市", "兵庫県"), ("岡山市", "岡山県"), ("広島市", "広島県"),
  ("北九州市", "福岡県"), ("福岡市", "福岡県"), ("熊本市", "熊本県")]

/-- Does the character list start with the given string, as Python
str.startswith. -/
def startsWithStr (a : List Char) (p : String) : Bool := p.data.isPrefixOf a

/-- Embedding of standardize_address_with_prefecture.  The Python code
returns missing and empty input unchanged, strips the address, returns it
when it starts with a prefecture name, otherwise prepends a prefecture
found by municipality name, otherwise the supplied one (a falsy value,
such as the empty string, is treated as not supplied), otherwise returns
the stripped address. -/
def standardize_address_with_prefecture (address : String)
    (current_prefecture : Option String) : String :=
  if address = "" then address
  else
    let a := stripChars address.data
    if PREFECTURES.any (fun p => startsWithStr a p) then String.mk a
    else
      match CITY_TO_PREFECTURE.find? (fun cp => startsWithStr a cp.1) with
      | some cp => cp.2 ++ String.mk a
      | none =>
        match current_prefecture with
        | some p => if p = "" then String.mk a else p ++ String.mk a
        | none => String.mk a

/-- Embedding of get_prefecture_from_postal_code: keep only the digits of
the postal code, give up when fewer than three remain, otherwise look the
first three up in the mapping. -/
def get_prefecture_from_postal_code (postal_code_str : String)
    (postal_mapping : List (String × String)) : Option String :=
  if postal_code_str = "" then none
  else
    let postal_digits := postal_code_str.data.filter Char.isDigit
    if postal_digits.length < 3 then none
    else postal_mapping.lookup (String.mk (postal_digits.take 3))

/-- A small postal-prefix fixture used by the concrete test cases of the
spec: the three prefixes that appear in its examples. -/
def demoPostalMap : List (String × String) :=
  [("100", "東京都"), ("530", "大阪府"), ("960", "福島県")]

/-! ## Romanized address translation -/

/-- The ROMAJI_TO_JAPANESE_PLACE table in Python dict insertion order.  The
source lists the key Nagasaki twice with the same value; a Python dict
keeps one entry at the position of the first insertion, which is what this
list records. -/
def ROMAJI_TO_JAPANESE_PLACE : List (String × String) := [
  ("Tokyo", "東京都"), ("Osaka", "大阪府"), ("Kyoto", "京都府"),
  ("Hokkaido", "北海道"), ("Fukuoka", "福岡県"), ("Nagasaki", "長崎県"),
  ("Hiroshima", "広島県"), ("Yokohama", "神奈川県"), ("Nagoya", "愛知県"),
  ("Sapporo", "北海道"), ("Kobe", "兵庫県"), ("Sendai", "宮城県"),
  ("Shibuya", "渋谷区"), ("Shinjuku", "新宿区"), ("Minato", "港区"),
  ("Chiyoda", "千代田区"), ("Chuo", "中央区"), ("Setagaya", "世田谷区"),
  ("Meguro", "目黒区"), ("Shinagawa", "品川区"), ("Ota", "大田区"),
  ("Suginami", "杉並区"), ("Nakano", "中野区"), ("Toshima", "豊島区"),
  ("Bunkyo", "文京区"), ("Taito", "台東区"), ("Sumida", "墨田区"),
  ("Koto", "江東区"), ("Kita", "北区"), ("Arakawa", "荒川区"),
  ("Itabashi", "板橋区"), ("Nerima", "練馬区"), ("Adachi", "足立区"),
  ("Katsushika", "葛飾区"), ("Edogawa", "江戸川区"),
  ("Kawasaki", "川崎市"), ("Sagamihara", "相模原市"), ("Fujisawa", "藤沢市"),
  ("Kamakura", "鎌倉市"), ("Yokosuka", "横須賀市"),
  ("Saitama", "さいたま市"), ("Kawagoe", "川越市"), ("Chiba", "千葉市"),
  ("Funabashi", "船橋市"), ("Matsudo", "松戸市"), ("Kashiwa", "柏市"),
  ("Tomachi", "戸町")]

/-- One pass over the table: each entry applied once, in order, to the
current state of the string. -/
def applyRomajiSubstitutions (l : List Char) : List Char :=
  ROMAJI_TO_JAPANESE_PLACE.foldl (fun acc pr => replaceCI pr.1 pr.2 acc) l

/-- Embedding of convert_romaji_address_to_japanese: strip, run the
substitution pass, and when the pass changed the string apply the Nagasaki
city-insertion cleanup. -/
def convert_romaji_address_to_japanese (address : String) : String :=
  if address = "" then address
  else
    let original_address := stripChars address.data
    let converted := applyRomajiSubstitutions original_address
    if converted ≠ original_address then
      if startsWithStr converted "長崎県" && !hasSub "長崎市".data converted then
        String.mk (replaceExact "長崎県戸町" "長崎県長崎市戸町" converted)
      else String.mk converted
    else String.mk converted

/-- The translation as worded by claim C7: every table entry applied
exactly once in definition order as a case-insensitive substitution
against the current string; when no substitution changed the string it is
returned without the cleanup rule, otherwise the cleanup rule replaces
every occurrence of the fragment when the result starts with the
prefecture and lacks the city. -/
def romajiTranslationSpec (address : String) : String :=
  let substituted := applyRomajiSubstitutions address.data
  if substituted = address.data then String.mk substituted
  else if startsWithStr substituted "長崎県" &&
      !hasSub "長崎市".data substituted then
    String.mk (replaceExact "長崎県戸町" "長崎県長崎市戸町" substituted)
  else String.mk substituted

/-! ## Priority Classifier -/

/-- One row of the working customer table, restricted to the fields the
verified functions read.  The cohort number is an Option Int: none models
a NaN cell, whose Python comparisons with numbers are all false. -/
structure Customer where
  nameKey : String
  email : String
  period : Option Int
  responded : Bool
deriving DecidableEq

/-- The 7-to-11 cohort window test of calculate_priority. -/
def inCohort7to11 : Option Int → Bool
  | some p => decide (7 ≤ p ∧ p ≤ 11)
  | none => false

/-- Embedding of calculate_priority: the survey-response status is
membership of the row's email in the survey email set, and the priority is
decided by the chain of conditions in source order. -/
def calculate_priority (row : Customer) (survey_emails : List String) : Nat :=
  let is_survey_respondent := survey_emails.contains row.email
  if row.period = some 12 then 1
  else if inCohort7to11 row.period && is_survey_respondent then 2
  else if inCohort7to11 row.period then 3
  else 4

/-- The decision table exactly as the spec prints it: four disjoint rows
over the cohort and the responded flag. -/
def priorityTableSpec (cohort : Option Int) (responded : Bool) : Nat :=
  if cohort = some 12 then 1
  else if inCohort7to11 cohort && responded then 2
  else if inCohort7to11 cohort && !responded then 3
  else 4

/-! ## Survey Matcher -/

/-- One survey source: the normalized name keys and the extracted emails,
in iteration order. -/
structure SurveySource where
  names : List String
  emails : List String
deriving DecidableEq

/-- The name-pass mask of merge_survey_data_enhanced: exact key equality
and the record not yet flagged. -/
def nameHit (n : String) (r : Customer) : Bool := r.nameKey == n && !r.responded

/-- The email-pass mask: exact email equality and the record not yet
flagged. -/
def emailHit (e : String) (r : Customer) : Bool := r.email == e && !r.responded

def setResponded (r : Customer) : Customer := { r with responded := true }

/-- One mask application: flag every record the mask selects and add the
number of selected records to the running tally. -/
def flagStep (hit : Customer → Bool) (st : List Customer × Nat) :
    List Customer × Nat :=
  (st.1.map (fun r => if hit r then setResponded r else r),
   st.2 + (st.1.filter hit).length)

/-- One survey source: the name pass over every survey name, then the
email pass over every survey email, each with its own tally. -/
def processSource (recs : List Customer) (src : SurveySource) :
    List Customer × Nat × Nat :=
  let afterNames := src.names.foldl (fun acc n => flagStep (nameHit n) acc) (recs, 0)
  let afterEmails :=
    src.emails.foldl (fun acc e => flagStep (emailHit e) acc) (afterNames.1, 0)
  (afterEmails.1, afterNames.2, afterEmails.2)

/-- One iteration of the loop over survey sources: process the source on
the current records, append its tallies, and add its emails to the
all-sources email set. -/
def mergeFoldStep (acc : List Customer × List (Nat × Nat) × List String)
    (src : SurveySource) : List Customer × List (Nat × Nat) × List String :=
  let out := processSource acc.1 src
  (out.1, acc.2.1 ++ [(out.2.1, out.2.2)], acc.2.2 ++ src.emails)

/-- Embedding of merge_survey_data_enhanced: initialise every responded
flag to false, process the sources in order, collect the per-source
(name, email) tallies and accumulate all survey emails for the priority
computation. -/
def merge_survey_data_enhanced (recs : List Customer)
    (sources : List SurveySource) :
    List Customer × List (Nat × Nat) × List String :=
  let start := recs.map (fun r => { r with responded := false })
  sources.foldl mergeFoldStep (start, ([], []))

/-- Number of records currently flagged as responded. -/
def respondedCount (recs : List Customer) : Nat :=
  (recs.filter (fun r => r.responded)).length

/-- Total of all per-source tallies, names plus emails. -/
def sumStats (stats : List (Nat × Nat)) : Nat :=
  (stats.map (fun p => p.1 + p.2)).sum

/-! ## Data Quality Auditor -/

/-- Unique values in first-encounter order, accumulating the values seen
so far. -/
def firstOccsAux (seen : List String) : List String → List String
  | [] => []
  | a :: rest =>
    if seen.contains a then firstOccsAux seen rest
    else a :: firstOccsAux (seen ++ [a]) rest

def firstOccs (l : List String) : List String := firstOccsAux [] l

/-- Stable descending insertion: the new element goes in front of the
first entry whose count does not exceed it, so earlier groups stay ahead
of later groups with the same count. -/
def insertByCountDesc (x : String × Nat) :
    List (String × Nat) → List (String × Nat)
  | [] => [x]
  | y :: ys => if y.2 ≤ x.2 then x :: y :: ys else y :: insertByCountDesc x ys

def sortByCountDesc : List (String × Nat) → List (String × Nat)
  | [] => []
  | x :: xs => insertByCountDesc x (sortByCountDesc xs)

/-- pandas value_counts: the distinct values with their multiplicities, in
descending count order, ties in first-encounter order. -/
def value_counts (l : List String) : List (String × Nat) :=
  sortByCountDesc ((firstOccs l).map (fun a => (a, l.count a)))

/-- Embedding of check_address_duplicates: count addresses, keep groups
with more than one record, rank the top_n largest, and also return the
number of duplicate groups. -/
def check_address_duplicates (addresses : List String) (top_n : Nat) :
    List (Nat × String × Nat) × Nat :=
  let address_counts := value_counts addresses
  let duplicates := address_counts.filter (fun p => 1 < p.2)
  let top_duplicates := duplicates.take top_n
  (top_duplicates.enum.map (fun ic => (ic.1 + 1, ic.2.1, ic.2.2)),
   duplicates.length)

/-! ## Completeness report (calculate_data_quality)

pandas Series.sum returns a NumPy integer scalar, and NumPy true division
of a scalar by zero does not raise: it produces inf (or nan for zero over
zero) together with a RuntimeWarning.  NpFloat models the values such a
division can take; exact rationals stand for the finite results. -/

inductive NpFloat where
  | finite (q : ℚ) : NpFloat
  | nan : NpFloat
  | inf : NpFloat
deriving DecidableEq

/-- NumPy scalar true division of two counts. -/
def npDivNat (a b : Nat) : NpFloat :=
  if b = 0 then (if a = 0 then NpFloat.nan else NpFloat.inf)
  else NpFloat.finite ((a : ℚ) / (b : ℚ))

/-- Multiplication of such a value by a natural constant, as in the
percentage computation. -/
def npMulNat (x : NpFloat) (k : Nat) : NpFloat :=
  match x with
  | NpFloat.finite q => NpFloat.finite (q * (k : ℚ))
  | NpFloat.nan => NpFloat.nan
  | NpFloat.inf => if k = 0 then NpFloat.nan else NpFloat.inf

def isFiniteNp : NpFloat → Bool
  | NpFloat.finite _ => true
  | NpFloat.nan => false
  | NpFloat.inf => false

/-- One row of the audited table restricted to the four tracked fields;
none models a missing (NaN) cell. -/
structure QRecord where
  phone : Option String
  address : Option String
  prefecture : Option String
  email : Option String
deriving DecidableEq

/-- One output row of calculate_data_quality: label, count, total and the
percentage value. -/
structure QualityRow where
  label : String
  count : Nat
  total : Nat
  percent : NpFloat
deriving DecidableEq

/-- Embedding of calculate_data_quality: per-field non-missing counts, the
record total, and count over total times one hundred for each tracked
field. -/
def calculate_data_quality (df : List QRecord) : List QualityRow :=
  let total := df.length
  let phone_count := (df.filter (fun r => r.phone.isSome)).length
  let address_count := (df.filter (fun r => r.address.isSome)).length
  let prefecture_count := (df.filter (fun r => r.prefecture.isSome)).length
  let email_count := (df.filter (fun r => r.email.isSome)).length
  [⟨"電話番号データ件数", phone_count, total,
      npMulNat (npDivNat phone_count total) 100⟩,
   ⟨"住所データ件数", address_count, total,
      npMulNat (npDivNat address_count total) 100⟩,
   ⟨"都道府県データ件数", prefecture_count, total,
      npMulNat (npDivNat prefecture_count total) 100⟩,
   ⟨"メールアドレスデータ件数", email_count, total,
      npMulNat (npDivNat email_count total) 100⟩]

/-! ### Lemmas about the helpers -/

theorem pyLower_toNat_of_upper {c : Char} (h : 65 ≤ c.toNat ∧ c.toNat ≤ 90) :
    (pyLower c).toNat = c.toNat + 32 := by
  simp only [pyLower, dif_pos h]
  rfl

theorem pyLower_eq_of_not_upper {c : Char} (h : ¬(65 ≤ c.toNat ∧ c.toNat ≤ 90)) :
    pyLower c = c := by
  unfold pyLower
  exact dif_neg h

theorem pyLower_idem (c : Char) : pyLower (pyLower c) = pyLower c := by
  by_cases h : 65 ≤ c.toNat ∧ c.toNat ≤ 90
  · have ht : (pyLower c).toNat = c.toNat + 32 := pyLower_toNat_of_upper h
    exact pyLower_eq_of_not_upper (by omega)
  · rw [pyLower_eq_of_not_upper h]
    exact pyLower_eq_of_not_upper h

theorem pyIsSpace_pyLower (c : Char) : pyIsSpace (pyLower c) = pyIsSpace c := by
  by_cases h : 65 ≤ c.toNat ∧ c.toNat ≤ 90
  · have ht : (pyLower c).toNat = c.toNat + 32 := pyLower_toNat_of_upper h
    have hl : pyIsSpace (pyLower c) = false := by
      simp only [pyIsSpace, ht, Bool.or_eq_false_iff, beq_eq_false_iff_ne, ne_eq]
      omega
    have hr : pyIsSpace c = false := by
      simp only [pyIsSpace, Bool.or_eq_false_iff, beq_eq_false_iff_ne, ne_eq]
      omega
    rw [hl, hr]
  · rw [pyLower_eq_of_not_upper h]

theorem dropWhile_eq_self_of_all {p : Char → Bool} :
    ∀ {l : List Char}, (∀ c ∈ l, p c = false) → l.dropWhile p = l
  | [], _ => rfl
  | c :: cs, h => by
    have hc : p c = false := h c (List.mem_cons_self c cs)
    simp [List.dropWhile_cons, hc]

theorem mem_of_mem_stripChars {c : Char} {l : List Char}
    (h : c ∈ stripChars l) : c ∈ l := by
  unfold stripChars at h
  rw [List.mem_reverse] at h
  have h1 := (List.dropWhile_suffix pyIsSpace).subset h
  rw [List.mem_reverse] at h1
  exact (List.dropWhile_suffix pyIsSpace).subset h1

theorem stripChars_eq_self_of_no_space {l : List Char}
    (h : ∀ c ∈ l, pyIsSpace c = false) : stripChars l = l := by
  unfold stripChars
  rw [dropWhile_eq_self_of_all h]
  rw [dropWhile_eq_self_of_all (fun c hc => h c (List.mem_reverse.mp hc))]
  exact List.reverse_reverse l

theorem dropWhile_head_false {p : Char → Bool} :
    ∀ {l : List Char} {c : Char} {cs : List Char},
      l.dropWhile p = c :: cs → p c = false := by
  intro l
  induction l with
  | nil => intro c cs h; simp at h
  | cons a as ih =>
    intro c cs h
    by_cases ha : p a
    · rw [List.dropWhile_cons_of_pos ha] at h
      exact ih h
    · rw [List.dropWhile_cons_of_neg ha] at h
      cases h
      simpa using ha

theorem dropWhile_idem (p : Char → Bool) :
    ∀ l : List Char, (l.dropWhile p).dropWhile p = l.dropWhile p := by
  intro l
  induction l with
  | nil => rfl
  | cons c cs ih =>
    by_cases hc : p c
    · rw [List.dropWhile_cons_of_pos hc]; exact ih
    · rw [List.dropWhile_cons_of_neg hc, List.dropWhile_cons_of_neg hc]

theorem stripChars_idem (l : List Char) :
    stripChars (stripChars l) = stripChars l := by
  unfold stripChars
  set A := (l.dropWhile pyIsSpace).reverse with hA
  set B := A.dropWhile pyIsSpace with hB
  have hd : B.reverse.dropWhile pyIsSpace = B.reverse := by
    cases hBrv : B.reverse with
    | nil => rfl
    | cons c cs =>
      have hsuf : B <:+ A := hB ▸ List.dropWhile_suffix pyIsSpace
      have hpre : B.reverse <+: A.reverse := List.reverse_prefix.mpr hsuf
      have hAr : A.reverse = l.dropWhile pyIsSpace := by
        rw [hA, List.reverse_reverse]
      rw [hAr, hBrv] at hpre
      obtain ⟨t, ht⟩ := hpre
      have hc : pyIsSpace c = false :=
        dropWhile_head_false (ht.symm : l.dropWhile pyIsSpace = c :: (cs ++ t))
      rw [List.dropWhile_cons_of_neg (by simp [hc])]
  rw [hd, List.reverse_reverse, hB, dropWhile_idem]

theorem isNameStripped_of_space {c : Char} (h : pyIsSpace c = true) :
    isNameStripped c = true := by
  simp [isNameStripped, h]

theorem no_space_of_kept {c : Char} (h : (!isNameStripped c) = true) :
    pyIsSpace c = false := by
  cases hs : pyIsSpace c
  · rfl
  · rw [isNameStripped_of_space hs] at h
    simp at h

theorem normalize_name_eq_filter (s : String) :
    normalize_name (some s)
      = String.mk (s.data.filter (fun c => !isNameStripped c)) := by
  by_cases h : s = ""
  · subst h; rfl
  · simp only [normalize_name, if_neg h]
    congr 1
    apply stripChars_eq_self_of_no_space
    intro c hc
    exact no_space_of_kept (List.mem_filter.mp hc).2

theorem normalize_email_eq (s : String) :
    normalize_email (some s) = String.mk (stripChars (s.data.map pyLower)) := by
  by_cases h : s = ""
  · subst h; rfl
  · simp only [normalize_email, if_neg h]

/-- C3.  The claim: for every string s, including empty and missing input,
normalize_name is idempotent and normalize_email is idempotent. -/
theorem C3_normalizers_idempotent :
    (∀ s : Option String,
      normalize_name (some (normalize_name s)) = normalize_name s) ∧
    (∀ s : Option String,
      normalize_email (some (normalize_email s)) = normalize_email s) := by
  constructor
  · intro s
    match s with
    | none => rfl
    | some s =>
      rw [normalize_name_eq_filter s, normalize_name_eq_filter]
      congr 1
      apply List.filter_eq_self.mpr
      intro c hc
      exact (List.mem_filter.mp hc).2
  · intro s
    match s with
    | none => rfl
    | some s =>
      rw [normalize_email_eq s, normalize_email_eq]
      congr 1
      have hmap : (stripChars (s.data.map pyLower)).map pyLower
          = stripChars (s.data.map pyLower) := by
        have hfix : ∀ c ∈ stripChars (s.data.map pyLower), pyLower c = c := by
          intro c hc
          have hmem : c ∈ s.data.map pyLower := mem_of_mem_stripChars hc
          obtain ⟨a, _, rfl⟩ := List.mem_map.mp hmem
          exact pyLower_idem a
        calc (stripChars (s.data.map pyLower)).map pyLower
            = (stripChars (s.data.map pyLower)).map id :=
              List.map_congr_left hfix
          _ = stripChars (s.data.map pyLower) := List.map_id _
      rw [hmap, stripChars_idem]

/-- C4.  The claim: normalize_name removes every occurrence of ASCII
space, full-width space, underscore, hyphen and the middle dot, trims the
ends, maps the three spellings of the example name to one key, and maps
empty and missing input to the empty string. -/
theorem C4_normalize_name_removes_separators :
    (∀ s : Option String,
      (normalize_name s).data.all (fun c => !removedByClaim c) = true) ∧
    (∀ s : Option String,
      stripChars (normalize_name s).data = (normalize_name s).data) ∧
    (normalize_name (some "最上_輝未子") = "最上輝未子" ∧
     normalize_name (some "最上 輝未子") = "最上輝未子" ∧
     normalize_name (some "最上-輝未子") = "最上輝未子") ∧
    (normalize_name none = "" ∧ normalize_name (some "") = "") := by
  refine ⟨?_, ?_, by decide, by decide⟩
  · intro s
    match s with
    | none => decide
    | some s =>
      rw [normalize_name_eq_filter s]
      apply List.all_eq_true.mpr
      intro c hc
      have hkept := (List.mem_filter.mp hc).2
      cases hrc : removedByClaim c
      · rfl
      · exfalso
        have : isNameStripped c = true := by
          simp only [removedByClaim, Bool.or_eq_true, beq_iff_eq] at hrc
          simp only [isNameStripped, pyIsSpace, Bool.or_eq_true, beq_iff_eq]
          omega
        rw [this] at hkept
        simp at hkept
  · intro s
    match s with
    | none => decide
    | some s =>
      rw [normalize_name_eq_filter s]
      apply stripChars_eq_self_of_no_space
      intro c hc
      exact no_space_of_kept (List.mem_filter.mp hc).2

/-- C1.  The claim: calculate_priority is exactly the fixed decision table
over the cohort number and the responded status, cohort 12 first, with
every other cohort value (including missing and out-of-range ones)
falling through to priority 4. -/
theorem C1_priority_decision_table :
    (∀ (row : Customer) (survey_emails : List String),
      calculate_priority row survey_emails
        = priorityTableSpec row.period (survey_emails.contains row.email)) ∧
    (∀ b : Bool, priorityTableSpec (some 12) b = 1) ∧
    (priorityTableSpec (some 9) true = 2 ∧ priorityTableSpec (some 9) false = 3 ∧
     priorityTableSpec (some 3) true = 4 ∧ priorityTableSpec (some 12) false = 1) ∧
    (∀ (p : Option Int) (b : Bool), p ≠ some 12 → inCohort7to11 p = false →
      priorityTableSpec p b = 4) := by
  refine ⟨?_, by decide, by decide, ?_⟩
  · intro row se
    unfold calculate_priority priorityTableSpec
    by_cases h12 : row.period = some 12
    · simp [h12]
    · cases hc : inCohort7to11 row.period <;>
        cases hr : se.contains row.email <;>
        · simp only [if_neg h12, hc, hr]
          simp
  · intro p b h12 hc
    unfold priorityTableSpec
    simp [h12, hc]

theorem C1_priority_decision_table_witness :
    priorityTableSpec (some 13) true = 4 :=
  C1_priority_decision_table.2.2.2 (some 13) true (by decide) (by decide)

/-- C9.  The implicit claim: calculate_priority never reads the
per-record responded flag (or the name key), only the email-set
membership; in particular a record in cohorts 7 to 11 that was flagged by
a name match but whose email is not in the aggregate survey email set gets
priority 3.  The last two conjuncts run the matcher itself on such a
record and then classify with the email set the matcher returned. -/
theorem C9_priority_ignores_responded_flag :
    (∀ (nk1 nk2 em : String) (p : Option Int) (b1 b2 : Bool)
       (se : List String),
      calculate_priority ⟨nk1, em, p, b1⟩ se
        = calculate_priority ⟨nk2, em, p, b2⟩ se) ∧
    (∀ (nk em : String) (p : Option Int) (b : Bool) (se : List String),
      inCohort7to11 p = true → se.contains em = false →
      calculate_priority ⟨nk, em, p, b⟩ se = 3) ∧
    ((fun out => out.1.map (fun r => calculate_priority r out.2.2))
        (merge_survey_data_enhanced [⟨"佐藤花子", "hanako@example.com", some 9, false⟩]
          [⟨["佐藤花子"], []⟩]) = [3]) ∧
    ((merge_survey_data_enhanced [⟨"佐藤花子", "hanako@example.com", some 9, false⟩]
        [⟨["佐藤花子"], []⟩]).1.map (fun r => r.responded) = [true]) := by
  refine ⟨?_, ?_, by decide, by decide⟩
  · intro nk1 nk2 em p b1 b2 se
    rfl
  · intro nk em p b se hc he
    unfold calculate_priority
    by_cases h12 : p = some 12
    · exfalso
      rw [h12] at hc
      simp [inCohort7to11] at hc
    · simp only [if_neg h12, hc, he]
      simp

theorem C9_priority_ignores_responded_flag_witness :
    calculate_priority ⟨"n", "a@b", some 9, true⟩ [] = 3 :=
  C9_priority_ignores_responded_flag.2.1 "n" "a@b" (some 9) true []
    (by decide) (by decide)

/-- C5.  The claim: postal-based prefecture resolution strips the
non-digit characters, needs at least three remaining digits, and looks
the first three up in the map; two spellings of the same code resolve
identically and a two-digit input resolves to none. -/
theorem C5_postal_prefecture_resolution :
    (∀ (postal : String) (mapping : List (String × String)),
      get_prefecture_from_postal_code postal mapping =
        (if (postal.data.filter Char.isDigit).length < 3 then none
         else mapping.lookup
           (String.mk ((postal.data.filter Char.isDigit).take 3)))) ∧
    get_prefecture_from_postal_code "1001111" demoPostalMap = some "東京都" ∧
    get_prefecture_from_postal_code "100-1111" demoPostalMap = some "東京都" ∧
    (get_prefecture_from_postal_code "1001111" demoPostalMap
      = get_prefecture_from_postal_code "100-1111" demoPostalMap) ∧
    get_prefecture_from_postal_code "12" demoPostalMap = none := by
  refine ⟨?_, by decide, by decide, by decide, by decide⟩
  intro postal mapping
  by_cases h : postal = ""
  · subst h; rfl
  · simp only [get_prefecture_from_postal_code, if_neg h]

theorem respondedCount_cons (r : Customer) (rs : List Customer) :
    respondedCount (r :: rs)
      = (if r.responded then 1 else 0) + respondedCount rs := by
  unfold respondedCount
  rw [List.filter_cons]
  cases hr : r.responded <;> simp [hr, Nat.add_comm]

theorem countResp_map_flag (hit : Customer → Bool)
    (hhit : ∀ r, hit r = true → r.responded = false) :
    ∀ recs : List Customer,
      respondedCount (recs.map (fun r => if hit r then setResponded r else r))
        = respondedCount recs + (recs.filter hit).length := by
  intro recs
  induction recs with
  | nil => rfl
  | cons r rs ih =>
    cases hr : hit r
    · simp only [List.map_cons, List.filter_cons, hr]
      rw [respondedCount_cons, respondedCount_cons, ih]
      simp
      omega
    · have hresp : r.responded = false := hhit r hr
      simp only [List.map_cons, List.filter_cons, hr]
      rw [respondedCount_cons, respondedCount_cons, ih]
      simp [setResponded, hresp]
      omega

theorem flagStep_pair (hit : Customer → Bool) (recs : List Customer) (c : Nat) :
    flagStep hit (recs, c)
      = (recs.map (fun r => if hit r then setResponded r else r),
         c + (recs.filter hit).length) := rfl

theorem foldl_flag_conserve (hitOf : String → Customer → Bool)
    (hhit : ∀ x r, hitOf x r = true → r.responded = false) :
    ∀ (xs : List String) (recs : List Customer) (c : Nat),
      respondedCount
          (xs.foldl (fun acc x => flagStep (hitOf x) acc) (recs, c)).1 + c
        = respondedCount recs
          + (xs.foldl (fun acc x => flagStep (hitOf x) acc) (recs, c)).2 := by
  intro xs
  induction xs with
  | nil => intro recs c; simp
  | cons x rest ih =>
    intro recs c
    rw [List.foldl_cons, flagStep_pair]
    have hstep := countResp_map_flag (hitOf x) (hhit x) recs
    have hrec := ih (recs.map (fun r => if hitOf x r then setResponded r else r))
      (c + (recs.filter (hitOf x)).length)
    omega

theorem nameHit_unflagged (n : String) (r : Customer)
    (h : nameHit n r = true) : r.responded = false := by
  simp only [nameHit, Bool.and_eq_true, Bool.not_eq_true'] at h
  exact h.2

theorem emailHit_unflagged (e : String) (r : Customer)
    (h : emailHit e r = true) : r.responded = false := by
  simp only [emailHit, Bool.and_eq_true, Bool.not_eq_true'] at h
  exact h.2

theorem respondedCount_processSource (recs : List Customer)
    (src : SurveySource) :
    respondedCount (processSource recs src).1
      = respondedCount recs + (processSource recs src).2.1
        + (processSource recs src).2.2 := by
  simp only [processSource]
  have h1 := foldl_flag_conserve nameHit nameHit_unflagged src.names recs 0
  have h2 := foldl_flag_conserve emailHit emailHit_unflagged src.emails
    (src.names.foldl (fun acc n => flagStep (nameHit n) acc) (recs, 0)).1 0
  omega

theorem sumStats_append (stats : List (Nat × Nat)) (a b : Nat) :
    sumStats (stats ++ [(a, b)]) = sumStats stats + a + b := by
  simp [sumStats]
  omega

theorem respondedCount_reset (recs : List Customer) :
    respondedCount (recs.map (fun r => { r with responded := false })) = 0 := by
  induction recs with
  | nil => rfl
  | cons r rs ih =>
    rw [List.map_cons, respondedCount_cons]
    simpa using ih

theorem mergeFoldStep_explicit (recs : List Customer)
    (stats : List (Nat × Nat)) (ems : List String) (src : SurveySource) :
    mergeFoldStep (recs, stats, ems) src
      = ((processSource recs src).1,
         stats ++ [((processSource recs src).2.1, (processSource recs src).2.2)],
         ems ++ src.emails) := rfl

theorem merge_foldl_conserve :
    ∀ (sources : List SurveySource) (recs : List Customer)
      (stats : List (Nat × Nat)) (ems : List String),
      respondedCount (sources.foldl mergeFoldStep (recs, stats, ems)).1
          + sumStats stats
        = respondedCount recs
          + sumStats (sources.foldl mergeFoldStep (recs, stats, ems)).2.1 := by
  intro sources
  induction sources with
  | nil => intro recs stats ems; simp
  | cons src rest ih =>
    intro recs stats ems
    rw [List.foldl_cons, mergeFoldStep_explicit]
    have hsrc := respondedCount_processSource recs src
    have hrec := ih (processSource recs src).1
      (stats ++ [((processSource recs src).2.1, (processSource recs src).2.2)])
      (ems ++ src.emails)
    rw [sumStats_append] at hrec
    omega

/-- C2.  The claim: a record, once flagged responded by any name pass or
email pass, is never counted again by a later pass of any source, so the
per-source tallies add up exactly to the number of responded records; in
the two-source scenario of the claim the record is counted once by the
name pass of the first source, zero times by the email pass of the second,
and the final responded count is one. -/
theorem C2_survey_match_no_double_count :
    (∀ (recs : List Customer) (sources : List SurveySource),
      respondedCount (merge_survey_data_enhanced recs sources).1
        = sumStats (merge_survey_data_enhanced recs sources).2.1) ∧
    (merge_survey_data_enhanced [⟨"山田太郎", "taro@example.com", some 9, false⟩]
        [⟨["山田太郎"], []⟩, ⟨[], ["taro@example.com"]⟩]
      = ([⟨"山田太郎", "taro@example.com", some 9, true⟩],
         [(1, 0), (0, 0)], ["taro@example.com"])) := by
  refine ⟨?_, by decide⟩
  intro recs sources
  have h := merge_foldl_conserve sources
    (recs.map (fun r => { r with responded := false })) [] []
  have h0 := respondedCount_reset recs
  simp only [merge_survey_data_enhanced]
  rw [show sumStats ([] : List (Nat × Nat)) = 0 from rfl] at h
  omega

theorem data_mk (l : List Char) : (String.mk l).data = l := rfl

/-- C6, counterexample.  The claim says an address that already starts
with one of the 47 prefecture names is returned unchanged; the code strips
surrounding whitespace first, so an address with a trailing blank comes
back altered. -/
theorem C6_standardize_address_counterexample :
    startsWithStr "東京都千代田区 ".data "東京都" = true ∧
    standardize_address_with_prefecture "東京都千代田区 " none
      ≠ "東京都千代田区 " ∧
    standardize_address_with_prefecture "東京都千代田区 " none
      = "東京都千代田区" := by
  refine ⟨by decide, by decide, by decide⟩

/-- C6, amended.  Empty input is returned unchanged with nothing
prepended; any other address is first trimmed of surrounding whitespace
and the trimmed address is what is matched on and returned: unchanged
when it starts with a prefecture name, with the mapped prefecture
prepended when a municipality of the table (scanned in definition order)
is a prefix of it, with a supplied non-empty known prefecture prepended
otherwise, and bare otherwise.  Matching is prefix matching, not substring
containment. -/
theorem C6_standardize_address_amended :
    (∀ cp : Option String,
      standardize_address_with_prefecture "" cp = "") ∧
    (∀ (address : String) (cp : Option String), address ≠ "" →
      PREFECTURES.any (fun p => startsWithStr (stripChars address.data) p)
          = true →
      standardize_address_with_prefecture address cp
        = String.mk (stripChars address.data)) ∧
    (∀ (address : String) (cp : Option String) (city pref : String),
      address ≠ "" →
      PREFECTURES.any (fun p => startsWithStr (stripChars address.data) p)
          = false →
      CITY_TO_PREFECTURE.find?
          (fun e => startsWithStr (stripChars address.data) e.1)
        = some (city, pref) →
      standardize_address_with_prefecture address cp
        = pref ++ String.mk (stripChars address.data)) ∧
    (∀ (address p : String), address ≠ "" → p ≠ "" →
      PREFECTURES.any (fun q => startsWithStr (stripChars address.data) q)
          = false →
      CITY_TO_PREFECTURE.find?
          (fun e => startsWithStr (stripChars address.data) e.1) = none →
      standardize_address_with_prefecture address (some p)
        = p ++ String.mk (stripChars address.data)) ∧
    (∀ address : String, address ≠ "" →
      PREFECTURES.any (fun q => startsWithStr (stripChars address.data) q)
          = false →
      CITY_TO_PREFECTURE.find?
          (fun e => startsWithStr (stripChars address.data) e.1) = none →
      standardize_address_with_prefecture address none
          = String.mk (stripChars address.data) ∧
      standardize_address_with_prefecture address (some "")
          = String.mk (stripChars address.data)) ∧
    standardize_address_with_prefecture "ビル横浜市1" none = "ビル横浜市1" := by
  refine ⟨?_, ?_, ?_, ?_, ?_, by decide⟩
  · intro cp; rfl
  · intro address cp haddr hpref
    simp only [standardize_address_with_prefecture, if_neg haddr, hpref,
      if_true]
  · intro address cp city pref haddr hpref hfind
    simp only [standardize_address_with_prefecture, if_neg haddr, hpref,
      Bool.false_eq_true, if_false, hfind]
  · intro address p haddr hp hpref hfind
    simp only [standardize_address_with_prefecture, if_neg haddr, hpref,
      Bool.false_eq_true, if_false, hfind, if_neg hp]
  · intro address haddr hpref hfind
    constructor
    · simp only [standardize_address_with_prefecture, if_neg haddr, hpref,
        Bool.false_eq_true, if_false, hfind]
    · simp only [standardize_address_with_prefecture, if_neg haddr, hpref,
        Bool.false_eq_true, if_false, hfind]
      simp

theorem C6_standardize_address_witness :
    standardize_address_with_prefecture "東京都港区赤坂1 " none
      = String.mk (stripChars "東京都港区赤坂1 ".data) :=
  C6_standardize_address_amended.2.1 "東京都港区赤坂1 " none
    (by decide) (by decide)

/-- C7.  The claim: the romanized translation is one pass over the table,
every entry applied exactly once in definition order as a case-insensitive
substring substitution on the current string, with the Nagasaki cleanup
applied only when some substitution changed the string; the concrete cases
exercise the docstring example, case insensitivity, and a string the pass
leaves unchanged, which skips the cleanup even though it contains the
cleanup fragment. -/
theorem C7_romaji_translation_single_pass :
    (∀ address : String,
      convert_romaji_address_to_japanese address
        = if address = "" then address
          else romajiTranslationSpec (String.mk (stripChars address.data))) ∧
    convert_romaji_address_to_japanese "NagasakiTomachi 2-20-57"
      = "長崎県長崎市戸町 2-20-57" ∧
    convert_romaji_address_to_japanese "TOKYO tower" = "東京都 tower" ∧
    convert_romaji_address_to_japanese "長崎県戸町1-1" = "長崎県戸町1-1" := by
  refine ⟨?_, by decide, by decide, by decide⟩
  intro address
  by_cases h : address = ""
  · simp [convert_romaji_address_to_japanese, h]
  · simp only [convert_romaji_address_to_japanese, romajiTranslationSpec,
      if_neg h, data_mk]
    by_cases hc : applyRomajiSubstitutions (stripChars address.data)
        = stripChars address.data
    · simp [hc]
    · simp [hc]

theorem insertByCountDesc_perm (x : String × Nat) :
    ∀ l : List (String × Nat), (insertByCountDesc x l).Perm (x :: l) := by
  intro l
  induction l with
  | nil => exact List.Perm.refl _
  | cons y ys ih =>
    by_cases h : y.2 ≤ x.2
    · simp only [insertByCountDesc, if_pos h]
      exact List.Perm.refl _
    · simp only [insertByCountDesc, if_neg h]
      exact (ih.cons y).trans (List.Perm.swap x y ys)

theorem sortByCountDesc_perm :
    ∀ l : List (String × Nat), (sortByCountDesc l).Perm l := by
  intro l
  induction l with
  | nil => exact List.Perm.refl _
  | cons x xs ih =>
    simp only [sortByCountDesc]
    exact (insertByCountDesc_perm x (sortByCountDesc xs)).trans (ih.cons x)

/-- C8.  The claim: the duplicate-address audit returns, as its second
component, the number of duplicate groups, that is of distinct addresses
occurring more than once, not the number of duplicate records; the
concrete cases check the ranked rows, the ordering by descending count,
the encounter-order tie break, and the top_n cut of the spec example. -/
theorem C8_duplicate_address_audit :
    (∀ (addresses : List String) (top_n : Nat),
      (check_address_duplicates addresses top_n).2
        = ((firstOccs addresses).filter
            (fun a => decide (1 < addresses.count a))).length) ∧
    check_address_duplicates ["A", "A", "B", "C", "C", "C"] 1
      = ([(1, "C", 3)], 2) ∧
    check_address_duplicates ["A", "A", "B", "C", "C", "C"] 10
      = ([(1, "C", 3), (2, "A", 2)], 2) ∧
    check_address_duplicates ["D", "D", "E", "E"] 10
      = ([(1, "D", 2), (2, "E", 2)], 2) := by
  refine ⟨?_, by decide, by decide, by decide⟩
  intro addresses top_n
  simp only [check_address_duplicates, value_counts]
  rw [← List.countP_eq_length_filter, ← List.countP_eq_length_filter]
  rw [List.Perm.countP_eq _ (sortByCountDesc_perm _)]
  rw [List.countP_map]
  rfl

/-- C10, counterexample.  The claim says the completeness report raises a
division-by-zero error on an empty record set; pandas reductions return
NumPy scalars, whose division by zero yields nan with a warning, so the
code returns a four-row report with nan percentages instead of raising. -/
theorem C10_quality_report_counterexample :
    calculate_data_quality []
      = [⟨"電話番号データ件数", 0, 0, NpFloat.nan⟩,
         ⟨"住所データ件数", 0, 0, NpFloat.nan⟩,
         ⟨"都道府県データ件数", 0, 0, NpFloat.nan⟩,
         ⟨"メールアドレスデータ件数", 0, 0, NpFloat.nan⟩] := by decide

/-- C10, amended.  For an empty record set the per-field percentages are
zero-over-zero divisions that produce nan entries in a report that is
still returned; the percentages are finite numbers exactly when the
record set is non-empty. -/
theorem C10_quality_report_amended :
    ∀ df : List QRecord, df ≠ [] →
      (calculate_data_quality df).all (fun row => isFiniteNp row.percent)
        = true := by
  intro df h
  have ht : df.length ≠ 0 := by
    have := List.length_pos.mpr h
    omega
  simp only [calculate_data_quality]
  simp [npDivNat, npMulNat, isFiniteNp, ht]

theorem C10_quality_report_witness :
    (calculate_data_quality [⟨none, none, none, none⟩]).all
        (fun row => isFiniteNp row.percent) = true :=
  C10_quality_report_amended [⟨none, none, none, none⟩] (by decide)
